import Mathlib

/-
Verification of the BookStack Home Assistant integration
(custom_components/bookstack_integration).

The Python source is shallowly embedded:
  - strings are Lean String, Python `sub in s` is `strContains s sub`,
    Python `str.lower()` is `lowerStr` (ASCII lowering over the
    character list, matching CPython for the ASCII names involved);
  - the floor classifier `_map_areas_to_floors` is embedded over an
    association list of (area_id, area_name) pairs, mirroring the
    insertion-ordered Python dict;
  - the HTTP layer is embedded by passing the HTTP response a request
    would yield as an explicit value; `_handle_response` becomes a total
    function from responses to `Except` of the typed error hierarchy;
  - the client cache plus remote BookStack state is embedded as explicit
    state passed through the find-or-create operations, together with a
    log of the requests each call issues.
-/

namespace BookStack

/-- Bool test that the character list pat is an initial segment of s. -/
def leadsList : List Char → List Char → Bool
  | [], _ => true
  | _ :: _, [] => false
  | a :: pt, b :: st => a == b && leadsList pt st

/-- Bool test that the character list pat occurs contiguously inside s. -/
def occursIn (pat : List Char) : List Char → Bool
  | [] => pat.isEmpty
  | c :: rest => leadsList pat (c :: rest) || occursIn pat rest

/-- Python substring membership `sub in s` on Lean strings. -/
def strContains (s sub : String) : Bool :=
  occursIn sub.toList s.toList

/-- Python `str.lower()` (ASCII range; the keyword tables and error
messages compared in the source are ASCII). -/
def lowerStr (s : String) : String :=
  String.mk (s.data.map Char.toLower)

/-! ## Floor classification (`_map_areas_to_floors`, `__init__.py` 174-236) -/

/-- The fixed, ordered keyword table `floor_mapping` from
`_map_areas_to_floors`.  Python dicts preserve insertion order, so the
table is an ordered association list. -/
def floorMapping : List (String × List String) :=
  [("Ground Floor", ["living", "kitchen", "garage", "entrance", "dining"]),
   ("First Floor", ["bedroom", "bathroom", "office", "guest"]),
   ("Basement", ["basement", "cellar"]),
   ("Attic", ["attic", "loft"]),
   ("Outside", ["garden", "patio", "balcony", "driveway", "outside"])]

/-- The bucket the inner `for floor_name, floor_keywords` loop assigns an
area name to: the first keyword group (in table order) containing a
keyword that occurs in the lowercased area name, if any. -/
def classifyArea (name : String) : Option String :=
  (floorMapping.find?
    (fun fk => fk.2.any (fun kw => strContains (lowerStr name) kw))).map Prod.fst

/-- Appends an area id to the bucket of the given floor, leaving the other
buckets unchanged (the Python `areas_by_floor[floor_name].append(area_id)`). -/
def appendTo (fl : String) (aid : String) :
    List (String × List String) → List (String × List String)
  | [] => []
  | b :: rest =>
    if b.1 = fl then (b.1, b.2 ++ [aid]) :: rest else b :: appendTo fl aid rest

/-- The main `for area_id, area_info in areas.items()` loop of
`_map_areas_to_floors`: each area goes to its classified bucket, or to the
`unmapped_areas` list. -/
def mapAreasLoop : List (String × String) → List (String × List String) →
    List String → List (String × List String) × List String
  | [], byFloor, unmapped => (byFloor, unmapped)
  | a :: rest, byFloor, unmapped =>
    match classifyArea a.2 with
    | some fl => mapAreasLoop rest (appendTo fl a.1 byFloor) unmapped
    | none => mapAreasLoop rest byFloor (unmapped ++ [a.1])

/-- The pre-declared empty buckets `areas_by_floor`. -/
def initBuckets : List (String × List String) :=
  floorMapping.map (fun fk => (fk.1, []))

/-- `_map_areas_to_floors`: classify every area, then add the dynamically
created catch-all bucket when any area was left unmapped. -/
def mapAreasToFloors (areas : List (String × String)) :
    List (String × List String) :=
  let r := mapAreasLoop areas initBuckets []
  if r.2.isEmpty then r.1 else r.1 ++ [("Other Areas", r.2)]

/-- All area ids stored in a bucket list, as a multiset. -/
def bucketIds (bf : List (String × List String)) : Multiset String :=
  ((bf.map Prod.snd).flatten : List String)

theorem bucketIds_nil : bucketIds [] = 0 := rfl

theorem bucketIds_cons (b : String × List String)
    (rest : List (String × List String)) :
    bucketIds (b :: rest) = (b.2 : Multiset String) + bucketIds rest := by
  simp [bucketIds, ← Multiset.coe_add]

theorem appendTo_keys (fl aid : String) (bf : List (String × List String)) :
    (appendTo fl aid bf).map Prod.fst = bf.map Prod.fst := by
  induction bf with
  | nil => rfl
  | cons b rest ih =>
    by_cases h : b.1 = fl <;> simp [appendTo, h, ih]

theorem bucketIds_appendTo (fl aid : String)
    (bf : List (String × List String)) (h : fl ∈ bf.map Prod.fst) :
    bucketIds (appendTo fl aid bf) = {aid} + bucketIds bf := by
  induction bf with
  | nil => simp at h
  | cons b rest ih =>
    by_cases hb : b.1 = fl
    · rw [show appendTo fl aid (b :: rest)
            = (b.1, b.2 ++ [aid]) :: rest by simp [appendTo, hb]]
      rw [bucketIds_cons, bucketIds_cons]
      rw [show ((b.2 ++ [aid] : List String) : Multiset String)
            = (b.2 : Multiset String) + ([aid] : List String) from
          (Multiset.coe_add b.2 [aid]).symm]
      simp only [Multiset.coe_singleton]
      abel
    · have hmem : fl ∈ rest.map Prod.fst := by
        simp only [List.map_cons, List.mem_cons] at h
        rcases h with h | h
        · exact absurd h.symm hb
        · exact h
      rw [show appendTo fl aid (b :: rest)
            = b :: appendTo fl aid rest by simp [appendTo, hb]]
      rw [bucketIds_cons, bucketIds_cons, ih hmem]
      abel

theorem classifyArea_mem_keys (name fl : String)
    (h : classifyArea name = some fl) : fl ∈ floorMapping.map Prod.fst := by
  unfold classifyArea at h
  cases hf : floorMapping.find?
      (fun fk => fk.2.any (fun kw => strContains (lowerStr name) kw)) with
  | none => rw [hf] at h; simp at h
  | some fk =>
    rw [hf] at h
    simp only [Option.map_some'] at h
    cases h
    exact List.mem_map_of_mem Prod.fst (List.mem_of_find?_eq_some hf)

theorem mapAreasLoop_ids (areas : List (String × String))
    (bf : List (String × List String)) (un : List String)
    (hkeys : ∀ fl ∈ floorMapping.map Prod.fst, fl ∈ bf.map Prod.fst) :
    bucketIds (mapAreasLoop areas bf un).1
        + ((mapAreasLoop areas bf un).2 : Multiset String)
      = ((areas.map Prod.fst : List String) : Multiset String)
        + bucketIds bf + (un : Multiset String) := by
  induction areas generalizing bf un with
  | nil =>
    simp only [mapAreasLoop, List.map_nil, Multiset.coe_nil]
    abel
  | cons a rest ih =>
    rw [show mapAreasLoop (a :: rest) bf un
          = match classifyArea a.2 with
            | some fl => mapAreasLoop rest (appendTo fl a.1 bf) un
            | none => mapAreasLoop rest bf (un ++ [a.1]) from rfl]
    cases h : classifyArea a.2 with
    | some fl =>
      have hfl : fl ∈ bf.map Prod.fst :=
        hkeys fl (classifyArea_mem_keys a.2 fl h)
      have hkeys2 : ∀ g ∈ floorMapping.map Prod.fst,
          g ∈ (appendTo fl a.1 bf).map Prod.fst := by
        intro g hg; rw [appendTo_keys]; exact hkeys g hg
      rw [ih (appendTo fl a.1 bf) un hkeys2, bucketIds_appendTo fl a.1 bf hfl]
      simp only [List.map_cons, ← Multiset.cons_coe, ← Multiset.singleton_add]
      abel
    | none =>
      rw [ih bf (un ++ [a.1]) hkeys]
      rw [show ((un ++ [a.1] : List String) : Multiset String)
            = (un : Multiset String) + ([a.1] : List String) from
          (Multiset.coe_add un [a.1]).symm]
      simp only [List.map_cons, ← Multiset.cons_coe, ← Multiset.singleton_add,
        Multiset.coe_singleton]
      abel

theorem initBuckets_ids : bucketIds initBuckets = 0 := rfl

/-- The flattened bucket contents of `_map_areas_to_floors` are, as a
multiset, exactly the input area ids. -/
theorem mapAreasToFloors_ids (areas : List (String × String)) :
    bucketIds (mapAreasToFloors areas)
      = ((areas.map Prod.fst : List String) : Multiset String) := by
  have h := mapAreasLoop_ids areas initBuckets [] (fun fl hf => hf)
  rw [initBuckets_ids, Multiset.coe_nil] at h
  unfold mapAreasToFloors
  cases hu : (mapAreasLoop areas initBuckets []).2 with
  | nil =>
    simp only [hu, List.isEmpty_nil]
    rw [if_pos trivial]
    rw [hu, Multiset.coe_nil, add_zero] at h
    rw [h]; abel
  | cons u us =>
    simp only [hu, List.isEmpty_cons]
    rw [if_neg (by simp)]
    rw [show bucketIds ((mapAreasLoop areas initBuckets []).1
          ++ [("Other Areas", u :: us)])
          = bucketIds (mapAreasLoop areas initBuckets []).1
            + ((u :: us : List String) : Multiset String) by
        simp [bucketIds, ← Multiset.coe_add]]
    rw [hu] at h
    rw [h]; abel

/-- C3: every input area is assigned to exactly one bucket (the flattened
bucket contents are a permutation of the input area ids), the first
matching keyword group in the fixed order wins, an area named Garage goes
to Ground Floor, one named Loft Office goes to First Floor (its office
keyword in the First Floor group is tested before the loft keyword in the
Attic group), and unmatched areas land in a dynamically added
Other Areas bucket. -/
theorem mapAreasToFloors_partition (areas : List (String × String)) :
    (((mapAreasToFloors areas).map Prod.snd).flatten).Perm (areas.map Prod.fst)
    ∧ classifyArea "Garage" = some "Ground Floor"
    ∧ classifyArea "Loft Office" = some "First Floor"
    ∧ mapAreasToFloors
        [("a1", "Garage"), ("a2", "Loft Office"), ("a3", "Pool House")]
        = [("Ground Floor", ["a1"]), ("First Floor", ["a2"]), ("Basement", []),
           ("Attic", []), ("Outside", []), ("Other Areas", ["a3"])] := by
  refine ⟨?_, by decide, by decide, by decide⟩
  exact Multiset.coe_eq_coe.mp (mapAreasToFloors_ids areas)

/-! ## Export orchestration (`handle_export`, `__init__.py` 243-357) -/

/-- The bucket test of the export loop:
`if area_filter: if area_filter.lower() not in floor_name.lower(): continue`.
A falsy filter (absent or empty string) passes everything; otherwise the
lowercased filter must occur in the lowercased floor bucket name. -/
def passesFilter (areaFilter : Option String) (floorName : String) : Bool :=
  match areaFilter with
  | none => true
  | some f => if f = "" then true else strContains (lowerStr floorName) (lowerStr f)

/-- The area ids whose pages the export loop writes: a bucket is skipped
when the filter rejects the bucket name or the bucket is empty; every area
of a surviving bucket gets a page. -/
def exportedAreaIds (areas : List (String × String))
    (areaFilter : Option String) : List String :=
  (((mapAreasToFloors areas).filter
      (fun b => passesFilter areaFilter b.1 && !b.2.isEmpty)).map Prod.snd).flatten

/-- C5 counterexample: with the single area named Kitchen and the filter
string kitchen, the filter occurs (case-insensitively) in the area name,
yet no page is written: the code matches the filter against the floor
bucket name (Ground Floor), not the area name. -/
theorem exportFilter_counterexample :
    strContains (lowerStr "Kitchen") (lowerStr "kitchen") = true
    ∧ exportedAreaIds [("k", "Kitchen")] (some "kitchen") = [] := by decide

/-- C5 amended: the filter is a floor-bucket-name substring filter: an
area page is written iff the area sits in a bucket whose name contains
the filter string case-insensitively. -/
theorem exportedAreaIds_iff (areas : List (String × String)) (f : String)
    (aid : String) :
    aid ∈ exportedAreaIds areas (some f)
      ↔ ∃ b ∈ mapAreasToFloors areas,
          aid ∈ b.2 ∧ passesFilter (some f) b.1 = true := by
  unfold exportedAreaIds
  simp only [List.mem_flatten, List.mem_map, List.mem_filter]
  constructor
  · rintro ⟨l, ⟨b, ⟨hb, hf⟩, rfl⟩, hmem⟩
    simp only [Bool.and_eq_true] at hf
    exact ⟨b, hb, hmem, hf.1⟩
  · rintro ⟨b, hb, hmem, hpass⟩
    refine ⟨b.2, ⟨b, ⟨hb, ?_⟩, rfl⟩, hmem⟩
    have hne : b.2.isEmpty = false := by
      cases hb2 : b.2 with
      | nil => rw [hb2] at hmem; simp at hmem
      | cons x xs => rfl
    simp [hpass, hne]

/-- The `area_info` dict read by `create_area_chapter`: only the keys
`device_count` and `entity_count` are consulted, through `.get(key, 0)`,
so each is an optional count. -/
structure AreaInfo where
  deviceCount : Option Nat
  entityCount : Option Nat
deriving DecidableEq, Repr

/-- The empty dict literal passed by `handle_export`. -/
def AreaInfo.emptyDict : AreaInfo := ⟨none, none⟩

/-- The chapter description `create_area_chapter` synthesises
(`bookstack_api.py` 620-630). -/
def createAreaChapterDescription (areaName : String)
    (areaInfo : AreaInfo) : String :=
  "Documentation for " ++ areaName ++ " area ("
    ++ toString (areaInfo.deviceCount.getD 0) ++ " devices, "
    ++ toString (areaInfo.entityCount.getD 0) ++ " entities)"

/-- The description the export run attaches to a floor chapter:
`handle_export` calls
`client.create_area_chapter(areas_book.id, floor_name, {})` with an empty
info dict (`__init__.py` 327-334). -/
def exportFloorChapterDescription (floorName : String) : String :=
  createAreaChapterDescription floorName AreaInfo.emptyDict

/-- C4 counterexample: take the Ground Floor bucket whose first area
sample has 2 devices and 3 entities. Had the sample been passed, the
description would embed (2 devices, 3 entities); the description the
export actually produces embeds (0 devices, 0 entities) and not the
sample counts, because `handle_export` passes the empty dict. -/
theorem chapterDescription_counterexample :
    strContains (createAreaChapterDescription "Ground Floor" ⟨some 2, some 3⟩)
        "(2 devices, 3 entities)" = true
    ∧ strContains (exportFloorChapterDescription "Ground Floor")
        "(2 devices, 3 entities)" = false
    ∧ strContains (exportFloorChapterDescription "Ground Floor")
        "(0 devices, 0 entities)" = true := by decide

/-- C4 amended: the chapter created for a floor bucket always carries the
description with zero device and entity counts, whatever the areas of the
bucket contain, because the orchestrator passes an empty info dict. -/
theorem exportFloorChapterDescription_zero (floorName : String) :
    exportFloorChapterDescription floorName
      = "Documentation for " ++ floorName
          ++ " area (0 devices, 0 entities)" := by
  unfold exportFloorChapterDescription createAreaChapterDescription
    AreaInfo.emptyDict
  simp only [String.append_assoc]
  rfl

/-! ## Whole-run error handling of `handle_export` -/

/-- Error message of a failed page write, empty string for a success. -/
def errOf : Except String Unit → String
  | .ok _ => ""
  | .error e => e

/-- The inner `for area_id in floor_area_ids` loop of `handle_export`:
writes pages in order; a raised error propagates out of the loop at once.
acc holds the pages already written in this run. -/
def writeAreas (w : String → Except String Unit) :
    List String → List String → Except (List String × String) (List String)
  | [], acc => .ok acc
  | aid :: rest, acc =>
    match w aid with
    | .ok _ => writeAreas w rest (acc ++ [aid])
    | .error e => .error (acc, e)

/-- The outer `for floor_name, floor_area_ids` loop of `handle_export`:
empty buckets are skipped; an error raised in the inner loop propagates
to the single whole-run except handler, which logs it and ends the run.
Returns the pages written and the caught error, if any. -/
def writeBuckets (w : String → Except String Unit) :
    List (String × List String) → List String → List String × Option String
  | [], acc => (acc, none)
  | (_, ids) :: rest, acc =>
    if ids.isEmpty then writeBuckets w rest acc
    else
      match writeAreas w ids acc with
      | .ok acc2 => writeBuckets w rest acc2
      | .error (acc2, e) => (acc2, some e)

/-- `handle_export` with no filter argument: returns early (with a logged
error, nothing written) when no config entry or no areas exist; otherwise
runs the bucket loop inside the single whole-run try/except. The service
call itself never raises. -/
def runExport (hasConfig : Bool) (areas : List (String × String))
    (w : String → Except String Unit) : List String × Option String :=
  if !hasConfig then ([], none)
  else if areas.isEmpty then ([], none)
  else writeBuckets w (mapAreasToFloors areas) []

/-- Page-write processing order of the export run over given buckets. -/
def pageOrder (buckets : List (String × List String)) : List String :=
  (buckets.map Prod.snd).flatten

theorem takeWhile_append_all {p : String → Bool} {l₁ l₂ : List String}
    (h : ∀ a ∈ l₁, p a = true) :
    (l₁ ++ l₂).takeWhile p = l₁ ++ l₂.takeWhile p := by
  induction l₁ with
  | nil => simp
  | cons a t ih =>
    have ha := h a (List.mem_cons_self a t)
    simp only [List.cons_append, List.takeWhile_cons, ha]
    rw [if_pos trivial, ih (fun x hx => h x (List.mem_cons_of_mem a hx))]

theorem takeWhile_append_stop {p : String → Bool} {l₁ l₂ : List String}
    {a : String} (h : l₁.find? (fun x => !p x) = some a) :
    (l₁ ++ l₂).takeWhile p = l₁.takeWhile p := by
  induction l₁ with
  | nil => simp at h
  | cons b t ih =>
    by_cases hb : p b = true
    · rw [List.find?_cons_of_neg _ (by simp [hb])] at h
      simp only [List.cons_append, List.takeWhile_cons, hb]
      rw [ih h]
    · have hb2 : p b = false := by
        cases hpb : p b
        · rfl
        · exact absurd hpb hb
      simp only [List.cons_append, List.takeWhile_cons, hb2]
      rw [if_neg (by simp), if_neg (by simp)]

theorem writeAreas_eq (w : String → Except String Unit) (ids acc : List String) :
    writeAreas w ids acc =
      match ids.find? (fun a => !(w a).isOk) with
      | none => .ok (acc ++ ids)
      | some a =>
          .error (acc ++ ids.takeWhile (fun a => (w a).isOk), errOf (w a)) := by
  induction ids generalizing acc with
  | nil => simp [writeAreas]
  | cons aid rest ih =>
    cases hw : w aid with
    | ok u =>
      have hok : (w aid).isOk = true := by rw [hw]; rfl
      rw [show writeAreas w (aid :: rest) acc
            = writeAreas w rest (acc ++ [aid]) by
          simp [writeAreas, hw]]
      rw [ih (acc ++ [aid])]
      rw [List.find?_cons_of_neg _ (by simp [hok])]
      cases hf : rest.find? (fun a => !(w a).isOk) with
      | none => simp
      | some a => simp [List.takeWhile_cons, hok]
    | error e =>
      have hnok : (w aid).isOk = false := by rw [hw]; rfl
      rw [show writeAreas w (aid :: rest) acc = .error (acc, e) by
          simp [writeAreas, hw]]
      rw [List.find?_cons_of_pos _ (by simp [hnok])]
      simp [List.takeWhile_cons, hnok, errOf, hw, Except.isOk, Except.toBool]

theorem writeBuckets_eq (w : String → Except String Unit)
    (buckets : List (String × List String)) (acc : List String) :
    writeBuckets w buckets acc =
      match (pageOrder buckets).find? (fun a => !(w a).isOk) with
      | none => (acc ++ pageOrder buckets, none)
      | some a =>
          (acc ++ (pageOrder buckets).takeWhile (fun a => (w a).isOk),
           some (errOf (w a))) := by
  induction buckets generalizing acc with
  | nil => simp [writeBuckets, pageOrder]
  | cons b rest ih =>
    obtain ⟨fl, ids⟩ := b
    have horder : pageOrder ((fl, ids) :: rest) = ids ++ pageOrder rest := by
      simp [pageOrder]
    by_cases hemp : ids = []
    · subst hemp
      rw [show writeBuckets w ((fl, []) :: rest) acc
            = writeBuckets w rest acc by simp [writeBuckets]]
      rw [ih acc, horder, List.nil_append]
    · have hne : ids.isEmpty = false := by
        cases ids with
        | nil => exact absurd rfl hemp
        | cons i it => rfl
      have hwa := writeAreas_eq w ids acc
      rw [show writeBuckets w ((fl, ids) :: rest) acc
            = match writeAreas w ids acc with
              | .ok acc2 => writeBuckets w rest acc2
              | .error (acc2, e) => (acc2, some e) by
          simp [writeBuckets, hne]]
      cases hf : ids.find? (fun a => !(w a).isOk) with
      | none =>
        simp only [hf] at hwa
        rw [hwa]
        have hall : ∀ a ∈ ids, (w a).isOk = true := by
          intro a ha
          have := List.find?_eq_none.mp hf a ha
          simpa using this
        show writeBuckets w rest (acc ++ ids) = _
        rw [ih (acc ++ ids), horder]
        simp only [List.find?_append, hf, Option.or]
        cases hf2 : (pageOrder rest).find? (fun a => !(w a).isOk) with
        | none => simp [List.append_assoc]
        | some a =>
          rw [takeWhile_append_all hall]
          simp [List.append_assoc]
      | some a =>
        simp only [hf] at hwa
        rw [hwa, horder]
        simp only [List.find?_append, hf, Option.or]
        rw [takeWhile_append_stop hf]

theorem takeWhile_all {p : String → Bool} {l : List String}
    (h : ∀ a ∈ l, p a = true) : l.takeWhile p = l := by
  induction l with
  | nil => rfl
  | cons a t ih =>
    simp [List.takeWhile_cons, h a (List.mem_cons_self a t),
      ih fun x hx => h x (List.mem_cons_of_mem a hx)]

/-- C1 amended: an error raised while writing one area page is caught and
logged only by the whole-run handler: the pages actually written are
exactly those strictly before the first failing write in processing
order, so the remaining areas and buckets are abandoned, and the run
reports no error only when every page write succeeds. Total absence of
areas (or of a config entry) still ends the run with nothing written. -/
theorem runExport_aborts_at_first_error (areas : List (String × String))
    (w : String → Except String Unit) :
    (runExport true areas w).1
        = (pageOrder (mapAreasToFloors areas)).takeWhile (fun a => (w a).isOk)
      ∧ ((runExport true areas w).2 = none
          ↔ ∀ a ∈ pageOrder (mapAreasToFloors areas), (w a).isOk = true) := by
  cases areas with
  | nil =>
    constructor
    · rfl
    · simp [runExport]
      intro a ha
      simp [pageOrder, mapAreasToFloors, mapAreasLoop, initBuckets,
        floorMapping] at ha
  | cons a0 rest =>
    rw [show runExport true (a0 :: rest) w
          = writeBuckets w (mapAreasToFloors (a0 :: rest)) [] by
        simp [runExport]]
    rw [writeBuckets_eq]
    cases hf : (pageOrder (mapAreasToFloors (a0 :: rest))).find?
        (fun a => !(w a).isOk) with
    | none =>
      have hall : ∀ a ∈ pageOrder (mapAreasToFloors (a0 :: rest)),
          (w a).isOk = true := by
        intro a ha
        have := List.find?_eq_none.mp hf a ha
        simpa using this
      constructor
      · simp [takeWhile_all hall]
      · exact ⟨fun _ => hall, fun _ => rfl⟩
    | some a =>
      have hmem := List.mem_of_find?_eq_some hf
      have hbad : (w a).isOk = false := by
        have := List.find?_some hf
        simpa using this
      constructor
      · simp
      · constructor
        · intro hcontra; exact absurd hcontra (by simp)
        · intro hcontra
          rw [hcontra a hmem] at hbad
          exact absurd hbad (by simp)

/-- A page-write outcome map that fails for the Kitchen area and succeeds
everywhere else. -/
def failKitchenWrite : String → Except String Unit :=
  fun aid => if aid = "k" then .error "API error: boom" else .ok ()

/-- C1 counterexample: two areas in two different buckets (Kitchen in
Ground Floor, Bedroom in First Floor). The Kitchen page write raises, and
although its own write would succeed, the Bedroom page is never written:
the export run does not proceed past the failure, it only logs the caught
error at the whole-run level. -/
theorem export_abort_counterexample :
    "b" ∉ (runExport true [("k", "Kitchen"), ("b", "Bedroom")]
        failKitchenWrite).1
    ∧ (runExport true [("k", "Kitchen"), ("b", "Bedroom")]
        failKitchenWrite).2 = some "API error: boom"
    ∧ failKitchenWrite "b" = .ok () := by
  refine ⟨by decide, by decide, rfl⟩

/-! ## HTTP response handling (`BookStackClient._handle_response`,
`bookstack_api.py` 272-305) -/

/-- One entry of the `data` array of a parsed listing response; the
fields consulted by the find operations. -/
structure ApiItem where
  id : Nat
  bookId : Nat
  name : String
deriving DecidableEq, Repr

/-- A parsed JSON body: the `error` field consulted by the generic error
branch and the `data` array consulted by the find operations. The empty
dict `{}` is `JsonVal.mk none []`. -/
structure JsonVal where
  errorMsg : Option String
  data : List ApiItem
deriving DecidableEq, Repr

/-- An HTTP response as `_handle_response` observes it: the status code,
the request url, whether `response.content` is non-empty, and the parse
result of `response.json()` (`none` when parsing raises). -/
structure HttpResponse where
  status : Nat
  url : String
  hasContent : Bool
  json : Option JsonVal
deriving DecidableEq, Repr

/-- The `BookStackError` hierarchy of `bookstack_api.py` 194-217: every
constructor carries the message, the optional status code and the
optional response data of the Python constructor. -/
inductive BSErr where
  | auth (message : String) (statusCode : Option Nat)
      (responseData : Option JsonVal)
  | notFound (message : String) (statusCode : Option Nat)
      (responseData : Option JsonVal)
  | rateLimit (message : String) (statusCode : Option Nat)
      (responseData : Option JsonVal)
  | generic (message : String) (statusCode : Option Nat)
      (responseData : Option JsonVal)
deriving DecidableEq, Repr

/-- Python `str(e)` on a BookStackError: the message passed first. -/
def BSErr.message : BSErr → String
  | .auth m _ _ => m
  | .notFound m _ _ => m
  | .rateLimit m _ _ => m
  | .generic m _ _ => m

/-- `_handle_response`: 200 and 201 return the parsed body; 401, 404 and
429 raise the typed errors with the status attached; everything else
raises the generic error with the status and the parsed body (empty dict
when the body is absent or unparseable, with the matching message). -/
def handleResponse (r : HttpResponse) : Except BSErr (Option JsonVal) :=
  if r.status = 200 then .ok r.json
  else if r.status = 201 then .ok r.json
  else if r.status = 401 then
    .error (.auth "Authentication failed - check your token"
      (some r.status) none)
  else if r.status = 404 then
    .error (.notFound ("Resource not found: " ++ r.url) (some r.status) none)
  else if r.status = 429 then
    .error (.rateLimit "Rate limit exceeded" (some r.status) none)
  else
    let parsed : JsonVal × String :=
      if r.hasContent then
        match r.json with
        | some j => (j, j.errorMsg.getD "Unknown error")
        | none => (⟨none, []⟩, "HTTP " ++ toString r.status)
      else (⟨none, []⟩, "Unknown error")
    .error (.generic ("API error: " ++ parsed.2) (some r.status)
      (some parsed.1))

theorem handleResponse_404_eq (r : HttpResponse) (h : r.status = 404) :
    handleResponse r
      = .error (.notFound ("Resource not found: " ++ r.url)
          (some 404) none) := by
  simp [handleResponse, h]

/-- A 204 No Content response, inside the 2xx range. -/
def resp204 : HttpResponse := ⟨204, "https://bs.example/api/books", false, none⟩

/-- C6 counterexample: 204 is a 2xx status, yet `_handle_response` does
not treat it as success: only 200 and 201 are success branches, and 204
falls through to the generic API error branch. -/
theorem handleResponse_204_counterexample :
    (200 ≤ resp204.status ∧ resp204.status < 300)
    ∧ handleResponse resp204
        = .error (.generic "API error: Unknown error" (some 204)
            (some ⟨none, []⟩)) := by
  exact ⟨by decide, rfl⟩

/-- C6 amended: 200 and 201 return the parsed JSON body; 401 raises the
authentication error, 404 the not-found error, 429 the rate-limit error,
each carrying its status; every other status, including 2xx statuses
other than 200 and 201, raises the generic API error carrying the status
code and the parsed response body when available. -/
theorem handleResponse_taxonomy (r : HttpResponse) :
    (r.status = 200 ∨ r.status = 201 → handleResponse r = .ok r.json)
    ∧ (r.status = 401 → handleResponse r
        = .error (.auth "Authentication failed - check your token"
            (some 401) none))
    ∧ (r.status = 404 → handleResponse r
        = .error (.notFound ("Resource not found: " ++ r.url)
            (some 404) none))
    ∧ (r.status = 429 → handleResponse r
        = .error (.rateLimit "Rate limit exceeded" (some 429) none))
    ∧ (r.status ≠ 200 → r.status ≠ 201 → r.status ≠ 401 → r.status ≠ 404 →
        r.status ≠ 429 →
        ∃ msg body, handleResponse r
          = .error (.generic msg (some r.status) (some body))) := by
  refine ⟨?_, ?_, ?_, ?_, ?_⟩
  · rintro (h | h) <;> simp [handleResponse, h]
  · intro h; simp [handleResponse, h]
  · intro h; simp [handleResponse, h]
  · intro h; simp [handleResponse, h]
  · intro h200 h201 h401 h404 h429
    cases hc : r.hasContent with
    | false =>
      refine ⟨"API error: " ++ "Unknown error", ⟨none, []⟩, ?_⟩
      simp [handleResponse, h200, h201, h401, h404, h429, hc]
    | true =>
      cases hj : r.json with
      | some j =>
        refine ⟨"API error: " ++ j.errorMsg.getD "Unknown error", j, ?_⟩
        simp [handleResponse, h200, h201, h401, h404, h429, hc, hj]
      | none =>
        refine ⟨"API error: " ++ ("HTTP " ++ toString r.status),
          ⟨none, []⟩, ?_⟩
        simp [handleResponse, h200, h201, h401, h404, h429, hc, hj]

/-- C6 witness: the amended taxonomy applied at a concrete 401 response. -/
theorem handleResponse_taxonomy_witness :
    handleResponse ⟨401, "https://bs.example/api/books", true, some ⟨none, []⟩⟩
      = .error (.auth "Authentication failed - check your token"
          (some 401) none) :=
  (handleResponse_taxonomy
    ⟨401, "https://bs.example/api/books", true, some ⟨none, []⟩⟩).2.1 rfl

/-! ## find_chapter 404 handling (`bookstack_api.py` 382-408) -/

/-- Python dict lookup in the chapter or page cache, keyed by the string
`f"{parent_id}:{name.lower()}"`; insertion is modelled by prepending, so
the first hit is the most recent binding, as in a dict overwrite. -/
def lookupCache {α : Type} (cache : List (String × α)) (key : String) :
    Option α :=
  (cache.find? (fun kv => kv.1 = key)).map Prod.snd

/-- The chapter cache key `f"{book_id}:{name.lower()}"`. -/
def chapterKey (bookId : Nat) (name : String) : String :=
  toString bookId ++ ":" ++ lowerStr name

/-- A chapter as the client stores it. -/
structure ChapterM where
  id : Nat
  bookId : Nat
  name : String
deriving DecidableEq, Repr

/-- `find_chapter` with the response of its listing request made
explicit: cache probe first; on a response the case-insensitive
name scan of the `data` array; a raised `BookStackNotFoundError` is
caught and turned into the absent result; any other `BookStackError`
is re-raised wrapped into the base class. Returns the result together
with the updated cache. -/
def find_chapter_http (cache : List (String × ChapterM)) (bookId : Nat)
    (name : String) (resp : HttpResponse) :
    Except BSErr (Option ChapterM) × List (String × ChapterM) :=
  let key := chapterKey bookId name
  match lookupCache cache key with
  | some c => (.ok (some c), cache)
  | none =>
    match handleResponse resp with
    | .ok j =>
      match (j.getD ⟨none, []⟩).data.find?
          (fun cd => lowerStr cd.name = lowerStr name) with
      | some cd =>
        let c : ChapterM := ⟨cd.id, cd.bookId, cd.name⟩
        (.ok (some c), (key, c) :: cache)
      | none => (.ok none, cache)
    | .error e =>
      match e with
      | .notFound _ _ _ => (.ok none, cache)
      | _ =>
        (.error (.generic ("Failed to search for chapter: " ++ e.message)
          none none), cache)

/-- C7: when the chapter listing request returns 404 (empty book) and the
chapter is not cached, `find_chapter` returns the absent result rather
than raising: the `BookStackNotFoundError` branch swallows the error. -/
theorem find_chapter_404_returns_none (cache : List (String × ChapterM))
    (bookId : Nat) (name : String) (resp : HttpResponse)
    (hmiss : lookupCache cache (chapterKey bookId name) = none)
    (h404 : resp.status = 404) :
    (find_chapter_http cache bookId name resp).1 = .ok none := by
  have h := handleResponse_404_eq resp h404
  simp only [find_chapter_http, hmiss, h]

/-- C7 witness: the empty cache and a concrete 404 response. -/
theorem find_chapter_404_witness :
    (find_chapter_http [] 7 "Ground Floor"
        ⟨404, "https://bs.example/api/books/7/chapters", true, none⟩).1
      = .ok none :=
  find_chapter_404_returns_none [] 7 "Ground Floor"
    ⟨404, "https://bs.example/api/books/7/chapters", true, none⟩ rfl rfl

/-! ## Error re-wrapping in find_book / find_shelf / find_page
(`bookstack_api.py` 318-334, 458-480, 565-581) -/

/-- A book as the client stores it. -/
structure BookM where
  id : Nat
  name : String
deriving DecidableEq, Repr

/-- A shelf as the client stores it. -/
structure ShelfM where
  id : Nat
  name : String
deriving DecidableEq, Repr

/-- A page as the client stores it. -/
structure PageM where
  id : Nat
  chapterId : Nat
  name : String
  markdown : String
deriving DecidableEq, Repr

/-- The page cache key `f"{chapter_id}:{name.lower()}"`. -/
def pageKey (chapterId : Nat) (name : String) : String :=
  toString chapterId ++ ":" ++ lowerStr name

/-- `find_book` with the response of its search request made explicit:
scan of the returned `data` array for a case-insensitive name match; any
caught `BookStackError`, typed subclasses included, is re-raised as the
base class built from the message alone. -/
def find_book_http (name : String) (resp : HttpResponse) :
    Except BSErr (Option BookM) :=
  match handleResponse resp with
  | .ok j =>
    match (j.getD ⟨none, []⟩).data.find?
        (fun bd => lowerStr bd.name = lowerStr name) with
    | some bd => .ok (some ⟨bd.id, bd.name⟩)
    | none => .ok none
  | .error e =>
    .error (.generic ("Failed to search for book: " ++ e.message) none none)

/-- `find_shelf` with the response of its search request made explicit;
same catch-all re-wrap as `find_book`. -/
def find_shelf_http (name : String) (resp : HttpResponse) :
    Except BSErr (Option ShelfM) :=
  match handleResponse resp with
  | .ok j =>
    match (j.getD ⟨none, []⟩).data.find?
        (fun sd => lowerStr sd.name = lowerStr name) with
    | some sd => .ok (some ⟨sd.id, sd.name⟩)
    | none => .ok none
  | .error e =>
    .error (.generic ("Failed to search for shelf: " ++ e.message) none none)

/-- `find_page` with the response of its listing request made explicit:
cache probe first, then the scan; unlike `find_chapter` there is no
`BookStackNotFoundError` branch, so every caught error, a 404 included,
is re-raised as the base class built from the message alone. -/
def find_page_http (cache : List (String × PageM)) (chapterId : Nat)
    (name : String) (resp : HttpResponse) :
    Except BSErr (Option PageM) × List (String × PageM) :=
  let key := pageKey chapterId name
  match lookupCache cache key with
  | some p => (.ok (some p), cache)
  | none =>
    match handleResponse resp with
    | .ok j =>
      match (j.getD ⟨none, []⟩).data.find?
          (fun pd => lowerStr pd.name = lowerStr name) with
      | some pd =>
        let p : PageM := ⟨pd.id, chapterId, pd.name, ""⟩
        (.ok (some p), (key, p) :: cache)
      | none => (.ok none, cache)
    | .error e =>
      (.error (.generic ("Failed to search for page: " ++ e.message)
        none none), cache)

/-- C10: whenever the underlying request of find_book, find_shelf or
find_page raises any typed BookStackError, the operation re-raises the
base generic error built from the message only, so the status code and
response data are discarded (both none); in particular find_page turns
a 404 into this generic error instead of an absent result. -/
theorem find_ops_wrap_errors (name : String) (chapterId : Nat)
    (cache : List (String × PageM)) (resp : HttpResponse) (e : BSErr)
    (herr : handleResponse resp = .error e)
    (hmiss : lookupCache cache (pageKey chapterId name) = none) :
    find_book_http name resp
        = .error (.generic ("Failed to search for book: " ++ e.message)
            none none)
    ∧ find_shelf_http name resp
        = .error (.generic ("Failed to search for shelf: " ++ e.message)
            none none)
    ∧ (find_page_http cache chapterId name resp).1
        = .error (.generic ("Failed to search for page: " ++ e.message)
            none none) := by
  refine ⟨?_, ?_, ?_⟩
  · simp only [find_book_http, herr]
  · simp only [find_shelf_http, herr]
  · simp only [find_page_http, hmiss, herr]

/-- C10 witness: a concrete 404 on the page listing of chapter 9 is
re-raised by find_page as the base generic error with no status and no
data, unlike the absent result find_chapter produces. -/
theorem find_ops_wrap_errors_witness :
    (find_page_http [] 9 "Kitchen Overview"
        ⟨404, "https://bs.example/api/chapters/9/pages", true, none⟩).1
      = .error (.generic
          ("Failed to search for page: "
            ++ (BSErr.notFound
                ("Resource not found: "
                  ++ "https://bs.example/api/chapters/9/pages")
                (some 404) none).message)
          none none) :=
  (find_ops_wrap_errors "Kitchen Overview" 9 []
    ⟨404, "https://bs.example/api/chapters/9/pages", true, none⟩
    (BSErr.notFound
      ("Resource not found: " ++ "https://bs.example/api/chapters/9/pages")
      (some 404) none)
    rfl rfl).2.2

/-! ## Config-flow connection test (`config_flow.py` 191-254 and
`bookstack_api.py` 307-316) -/

/-- `test_connection`: issues a request, pipes the response through
`_handle_response`, and swallows every raised BookStackError into the
boolean failure result (logging it). -/
def test_connection (resp : HttpResponse) : Bool :=
  match handleResponse resp with
  | .ok _ => true
  | .error _ => false

/-- Outcome of `async_step_test`: a created config entry or a
re-presented form with an inline base error. -/
inductive FlowResult where
  | createEntry (title : String)
  | showForm (stepId : String) (baseError : String)
deriving DecidableEq, Repr

/-- The error-message classification chain of `async_step_test`
(`config_flow.py` 236-245), applied to `str(e)` of the caught error. -/
def classify_test_error (e : BSErr) : String :=
  let s := e.message
  let sl := lowerStr s
  if strContains sl "authentication" || strContains s "401" then
    "auth_failed"
  else if strContains sl "not found" || strContains s "404" then
    "connection_failed"
  else if strContains sl "timeout" || strContains sl "time" then
    "timeout"
  else if strContains sl "rate" || strContains s "429" then
    "connection_failed"
  else "connection_failed"

/-- `async_step_test` with the response of the connection-test request
made explicit: a successful test creates the entry (the shelf
verification swallows its own errors); a failed test raises the fresh
base error with the fixed message Connection test failed, which the
except handler classifies and shows on the re-presented form. -/
def async_step_test (testResp : HttpResponse) : FlowResult :=
  if test_connection testResp then
    FlowResult.createEntry "My Bookstack Instance"
  else
    FlowResult.showForm "shelf_selection"
      (classify_test_error (.generic "Connection test failed" none none))

/-- C8: at a connection test answered with HTTP 401, the wizard
re-presents the form with the inline error connection_failed, not
auth_failed: `test_connection` swallows the typed auth error and returns
False, so the classifier only ever sees the fixed message Connection
test failed and its auth branch cannot fire; the classifier itself would
map the swallowed auth message to auth_failed had it been propagated. -/
theorem async_step_test_401 :
    async_step_test
        ⟨401, "https://bs.example/api/books", true, some ⟨none, []⟩⟩
      = FlowResult.showForm "shelf_selection" "connection_failed"
    ∧ classify_test_error
        (.auth "Authentication failed - check your token" (some 401) none)
      = "auth_failed" := by
  refine ⟨by decide, by decide⟩

/-! ## Find-or-create idempotence: explicit client plus remote state
(`bookstack_api.py` 220-630)

The remote BookStack instance is modelled as lists of entities plus a
fresh-id counter; a search or listing request is modelled as the server
returning every entity of the requested kind (the scope filter of a
listing is applied to the stored parent id), with the client-side scan of
the source doing the authoritative case-insensitive matching. Each
operation also returns the list of requests it issued. -/

/-- The remote BookStack state. -/
structure Remote where
  shelves : List ShelfM
  books : List BookM
  chapters : List ChapterM
  pages : List PageM
  nextId : Nat
deriving DecidableEq, Repr

/-- The kinds of requests a client operation can issue. -/
inductive Req where
  | search
  | listChildren
  | create
  | update
deriving DecidableEq, Repr

/-- The client cache of `BookStackClient.__init__`: one optional book,
and the chapter and page dicts keyed by `parent_id:lowered_name`. -/
structure ClientState where
  bookCache : Option BookM
  chapterCache : List (String × ChapterM)
  pageCache : List (String × PageM)
deriving DecidableEq, Repr

/-- The cache of a freshly constructed client. -/
def ClientState.empty : ClientState := ⟨none, [], []⟩

/-- `find_book`: search request, then the scan for the first
case-insensitive exact name match. -/
def find_book (rem : Remote) (name : String) : Option BookM :=
  rem.books.find? (fun b => lowerStr b.name = lowerStr name)

/-- `create_book`: the server stores a new book under a fresh id. -/
def create_book (rem : Remote) (name : String) : BookM × Remote :=
  let b : BookM := ⟨rem.nextId, name⟩
  (b, { rem with books := rem.books ++ [b], nextId := rem.nextId + 1 })

/-- The find-then-create fallback of `find_or_create_book` (the path
taken when the book cache cannot answer). -/
def find_or_create_book_go (st : ClientState) (rem : Remote)
    (name : String) : BookM × ClientState × Remote × List Req :=
  match find_book rem name with
  | some b => (b, { st with bookCache := some b }, rem, [Req.search])
  | none =>
    let br := create_book rem name
    (br.1, { st with bookCache := some br.1 }, br.2,
     [Req.search, Req.create])

/-- `find_or_create_book`: the cached book answers when its name matches
case-insensitively; otherwise find, falling back to create. -/
def find_or_create_book (st : ClientState) (rem : Remote)
    (name : String) : BookM × ClientState × Remote × List Req :=
  match st.bookCache with
  | some cached =>
    if lowerStr cached.name = lowerStr name then (cached, st, rem, [])
    else find_or_create_book_go st rem name
  | none => find_or_create_book_go st rem name

/-- `find_chapter` over the state model: cache probe, then the listing
request for the chapters of the book and the scan; a found chapter is
cached. -/
def find_chapter (st : ClientState) (rem : Remote) (bookId : Nat)
    (name : String) : Option ChapterM × ClientState × List Req :=
  let key := chapterKey bookId name
  match lookupCache st.chapterCache key with
  | some c => (some c, st, [])
  | none =>
    match (rem.chapters.filter (fun c => c.bookId = bookId)).find?
        (fun c => lowerStr c.name = lowerStr name) with
    | some c =>
      (some c, { st with chapterCache := (key, c) :: st.chapterCache },
       [Req.listChildren])
    | none => (none, st, [Req.listChildren])

/-- `create_chapter`: the server stores a new chapter under a fresh id. -/
def create_chapter (rem : Remote) (bookId : Nat) (name : String) :
    ChapterM × Remote :=
  let c : ChapterM := ⟨rem.nextId, bookId, name⟩
  (c, { rem with chapters := rem.chapters ++ [c], nextId := rem.nextId + 1 })

/-- `find_or_create_chapter`: cache probe, then `find_chapter`, falling
back to `create_chapter`; the result is cached. -/
def find_or_create_chapter (st : ClientState) (rem : Remote) (bookId : Nat)
    (name : String) : ChapterM × ClientState × Remote × List Req :=
  let key := chapterKey bookId name
  match lookupCache st.chapterCache key with
  | some c => (c, st, rem, [])
  | none =>
    match find_chapter st rem bookId name with
    | (some c, st2, reqs) =>
      (c, { st2 with chapterCache := (key, c) :: st2.chapterCache }, rem,
       reqs)
    | (none, st2, reqs) =>
      let cr := create_chapter rem bookId name
      (cr.1, { st2 with chapterCache := (key, cr.1) :: st2.chapterCache },
       cr.2, reqs ++ [Req.create])

/-- `find_page` over the state model: cache probe, then the listing
request for the pages of the chapter and the scan; a found page is
cached. -/
def find_page (st : ClientState) (rem : Remote) (chapterId : Nat)
    (name : String) : Option PageM × ClientState × List Req :=
  let key := pageKey chapterId name
  match lookupCache st.pageCache key with
  | some p => (some p, st, [])
  | none =>
    match (rem.pages.filter (fun p => p.chapterId = chapterId)).find?
        (fun p => lowerStr p.name = lowerStr name) with
    | some p =>
      (some p, { st with pageCache := (key, p) :: st.pageCache },
       [Req.listChildren])
    | none => (none, st, [Req.listChildren])

/-- `create_page`: the server stores a new page under a fresh id. -/
def create_page (rem : Remote) (chapterId : Nat) (name content : String) :
    PageM × Remote :=
  let p : PageM := ⟨rem.nextId, chapterId, name, content⟩
  (p, { rem with pages := rem.pages ++ [p], nextId := rem.nextId + 1 })

/-- `update_page`: PUT on the page id replaces title and markdown. -/
def update_page (rem : Remote) (p : PageM) (name content : String) :
    PageM × Remote :=
  let p2 : PageM := ⟨p.id, p.chapterId, name, content⟩
  (p2, { rem with
    pages := rem.pages.map (fun q => if q.id = p.id then p2 else q) })

/-- `create_or_update_page`: `find_page`, then update the found page or
create a fresh one; the written page is cached. -/
def create_or_update_page (st : ClientState) (rem : Remote)
    (chapterId : Nat) (name content : String) :
    PageM × ClientState × Remote × List Req :=
  let key := pageKey chapterId name
  match find_page st rem chapterId name with
  | (some existing, st2, reqs) =>
    let pr := update_page rem existing name content
    (pr.1, { st2 with pageCache := (key, pr.1) :: st2.pageCache }, pr.2,
     reqs ++ [Req.update])
  | (none, st2, reqs) =>
    let pr := create_page rem chapterId name content
    (pr.1, { st2 with pageCache := (key, pr.1) :: st2.pageCache }, pr.2,
     reqs ++ [Req.create])

/-- `find_shelf`: search request, then the scan for the first
case-insensitive exact name match. There is no shelf cache. -/
def find_shelf (rem : Remote) (name : String) : Option ShelfM :=
  rem.shelves.find? (fun s => lowerStr s.name = lowerStr name)

/-- `create_shelf`: the server stores a new shelf under a fresh id. -/
def create_shelf (rem : Remote) (name : String) : ShelfM × Remote :=
  let s : ShelfM := ⟨rem.nextId, name⟩
  (s, { rem with shelves := rem.shelves ++ [s], nextId := rem.nextId + 1 })

/-- `find_or_create_shelf`: find, falling back to create; no cache. -/
def find_or_create_shelf (rem : Remote) (name : String) :
    ShelfM × Remote × List Req :=
  match find_shelf rem name with
  | some s => (s, rem, [Req.search])
  | none =>
    let sr := create_shelf rem name
    (sr.1, sr.2, [Req.search, Req.create])

theorem filter_single {α : Type} (p : α → Bool) (l : List α) (a : α)
    (h : ∀ x ∈ l, p x = false) (ha : p a = true) :
    ((l ++ [a]).filter p).length = 1 := by
  rw [List.filter_append,
    List.filter_eq_nil_iff.mpr (by intro x hx; simp [h x hx])]
  simp [List.filter, ha]

theorem shelf_idem (rem : Remote) (name : String)
    (hs : ∀ s ∈ rem.shelves, lowerStr s.name ≠ lowerStr name) :
    (find_or_create_shelf (find_or_create_shelf rem name).2.1 name).1
        = (find_or_create_shelf rem name).1
    ∧ (find_or_create_shelf rem name).2.2 = [Req.search, Req.create]
    ∧ (find_or_create_shelf (find_or_create_shelf rem name).2.1 name).2.2
        = [Req.search]
    ∧ ((find_or_create_shelf
          (find_or_create_shelf rem name).2.1 name).2.1.shelves.filter
        (fun s => lowerStr s.name = lowerStr name)).length = 1 := by
  have hfind : find_shelf rem name = none := by
    apply List.find?_eq_none.mpr
    intro s hmem
    simpa using hs s hmem
  have hcall1 : find_or_create_shelf rem name
      = ((create_shelf rem name).1, (create_shelf rem name).2,
         [Req.search, Req.create]) := by
    simp [find_or_create_shelf, hfind]
  have hfind2 : find_shelf (create_shelf rem name).2 name
      = some (create_shelf rem name).1 := by
    unfold find_shelf at hfind ⊢
    simp only [create_shelf, List.find?_append, hfind, Option.none_or]
    exact List.find?_cons_of_pos _ (by simp)
  have hcall2 : find_or_create_shelf (create_shelf rem name).2 name
      = ((create_shelf rem name).1, (create_shelf rem name).2,
         [Req.search]) := by
    simp [find_or_create_shelf, hfind2]
  refine ⟨?_, ?_, ?_, ?_⟩
  · simp only [hcall1, hcall2]
  · simp only [hcall1]
  · simp only [hcall1, hcall2]
  · simp only [hcall1, hcall2]
    simp only [create_shelf]
    exact filter_single _ _ _
      (fun x hx => by simpa using hs x hx) (by simp)

theorem book_idem (rem : Remote) (name : String)
    (hb : ∀ b ∈ rem.books, lowerStr b.name ≠ lowerStr name) :
    (find_or_create_book (find_or_create_book ClientState.empty rem name).2.1
        (find_or_create_book ClientState.empty rem name).2.2.1 name).1
      = (find_or_create_book ClientState.empty rem name).1
    ∧ (find_or_create_book ClientState.empty rem name).2.2.2
        = [Req.search, Req.create]
    ∧ (find_or_create_book (find_or_create_book ClientState.empty rem name).2.1
        (find_or_create_book ClientState.empty rem name).2.2.1 name).2.2.2
      = []
    ∧ ((find_or_create_book (find_or_create_book ClientState.empty rem name).2.1
          (find_or_create_book ClientState.empty rem name).2.2.1
          name).2.2.1.books.filter
        (fun b => lowerStr b.name = lowerStr name)).length = 1 := by
  have hfind : find_book rem name = none := by
    apply List.find?_eq_none.mpr
    intro b hmem
    simpa using hb b hmem
  have hcall1 : find_or_create_book ClientState.empty rem name
      = ((create_book rem name).1,
         { ClientState.empty with bookCache := some (create_book rem name).1 },
         (create_book rem name).2,
         [Req.search, Req.create]) := by
    simp [find_or_create_book, find_or_create_book_go, ClientState.empty,
      hfind]
  have hcall2 : find_or_create_book
      { ClientState.empty with bookCache := some (create_book rem name).1 }
      (create_book rem name).2 name
      = ((create_book rem name).1,
         { ClientState.empty with bookCache := some (create_book rem name).1 },
         (create_book rem name).2,
         []) := by
    simp [find_or_create_book, create_book]
  refine ⟨?_, ?_, ?_, ?_⟩
  · simp only [hcall1, hcall2]
  · simp only [hcall1]
  · simp only [hcall1, hcall2]
  · simp only [hcall1, hcall2]
    simp only [create_book]
    exact filter_single _ _ _
      (fun x hx => by simpa using hb x hx) (by simp)

/-- The client cache after the first find-or-create of a chapter from a
fresh client. -/
def chapterPostCache (rem : Remote) (bookId : Nat) (name : String) :
    ClientState :=
  { ClientState.empty with chapterCache :=
      [(chapterKey bookId name, (create_chapter rem bookId name).1)] }

theorem chapter_idem (rem : Remote) (bookId : Nat) (name : String)
    (hc : ∀ c ∈ rem.chapters, c.bookId = bookId →
      lowerStr c.name ≠ lowerStr name) :
    (find_or_create_chapter
        (find_or_create_chapter ClientState.empty rem bookId name).2.1
        (find_or_create_chapter ClientState.empty rem bookId name).2.2.1
        bookId name).1
      = (find_or_create_chapter ClientState.empty rem bookId name).1
    ∧ (find_or_create_chapter ClientState.empty rem bookId name).2.2.2
        = [Req.listChildren, Req.create]
    ∧ (find_or_create_chapter
        (find_or_create_chapter ClientState.empty rem bookId name).2.1
        (find_or_create_chapter ClientState.empty rem bookId name).2.2.1
        bookId name).2.2.2 = []
    ∧ ((find_or_create_chapter
          (find_or_create_chapter ClientState.empty rem bookId name).2.1
          (find_or_create_chapter ClientState.empty rem bookId name).2.2.1
          bookId name).2.2.1.chapters.filter
        (fun c => c.bookId = bookId
          ∧ lowerStr c.name = lowerStr name)).length = 1 := by
  have hfind : (rem.chapters.filter (fun c => c.bookId = bookId)).find?
      (fun c => lowerStr c.name = lowerStr name) = none := by
    apply List.find?_eq_none.mpr
    intro c hmem
    obtain ⟨hin, hbk⟩ := List.mem_filter.mp hmem
    simp only [decide_eq_true_eq] at hbk
    simpa using hc c hin hbk
  have hfc1 : find_chapter ClientState.empty rem bookId name
      = (none, ClientState.empty, [Req.listChildren]) := by
    simp [find_chapter, lookupCache, ClientState.empty, hfind]
  have hcall1 : find_or_create_chapter ClientState.empty rem bookId name
      = ((create_chapter rem bookId name).1,
         chapterPostCache rem bookId name,
         (create_chapter rem bookId name).2,
         [Req.listChildren, Req.create]) := by
    simp only [ClientState.empty] at hfc1
    simp [find_or_create_chapter, lookupCache, ClientState.empty, hfc1,
      chapterPostCache]
  have hlook2 : lookupCache (chapterPostCache rem bookId name).chapterCache
      (chapterKey bookId name) = some (create_chapter rem bookId name).1 := by
    simp [chapterPostCache, lookupCache, ClientState.empty]
  have hcall2 : find_or_create_chapter (chapterPostCache rem bookId name)
      (create_chapter rem bookId name).2 bookId name
      = ((create_chapter rem bookId name).1,
         chapterPostCache rem bookId name,
         (create_chapter rem bookId name).2,
         []) := by
    simp [find_or_create_chapter, hlook2]
  refine ⟨?_, ?_, ?_, ?_⟩
  · simp only [hcall1, hcall2]
  · simp only [hcall1]
  · simp only [hcall1, hcall2]
  · simp only [hcall1, hcall2]
    simp only [create_chapter]
    exact filter_single _ _ _
      (fun x hx => by
        simpa using fun h1 => hc x hx h1)
      (by simp)

/-- The client cache after the first create-or-update of a page from a
fresh client. -/
def pagePostCache (rem : Remote) (chapterId : Nat) (name content : String) :
    ClientState :=
  { ClientState.empty with pageCache :=
      [(pageKey chapterId name,
        (create_page rem chapterId name content).1)] }

theorem page_idem (rem : Remote) (chapterId : Nat)
    (name content1 content2 : String)
    (hp : ∀ p ∈ rem.pages, p.chapterId = chapterId →
      lowerStr p.name ≠ lowerStr name)
    (hid : ∀ p ∈ rem.pages, p.id ≠ rem.nextId) :
    (create_or_update_page
        (create_or_update_page ClientState.empty rem chapterId name
          content1).2.1
        (create_or_update_page ClientState.empty rem chapterId name
          content1).2.2.1 chapterId name content2).1.id
      = (create_or_update_page ClientState.empty rem chapterId name
          content1).1.id
    ∧ (create_or_update_page ClientState.empty rem chapterId name
        content1).2.2.2 = [Req.listChildren, Req.create]
    ∧ (create_or_update_page
        (create_or_update_page ClientState.empty rem chapterId name
          content1).2.1
        (create_or_update_page ClientState.empty rem chapterId name
          content1).2.2.1 chapterId name content2).2.2.2 = [Req.update]
    ∧ ((create_or_update_page
          (create_or_update_page ClientState.empty rem chapterId name
            content1).2.1
          (create_or_update_page ClientState.empty rem chapterId name
            content1).2.2.1 chapterId name content2).2.2.1.pages.filter
        (fun p => p.chapterId = chapterId
          ∧ lowerStr p.name = lowerStr name)).length = 1 := by
  have hfind : (rem.pages.filter (fun p => p.chapterId = chapterId)).find?
      (fun p => lowerStr p.name = lowerStr name) = none := by
    apply List.find?_eq_none.mpr
    intro p hmem
    obtain ⟨hin, hch⟩ := List.mem_filter.mp hmem
    simp only [decide_eq_true_eq] at hch
    simpa using hp p hin hch
  have hfp1 : find_page ClientState.empty rem chapterId name
      = (none, ClientState.empty, [Req.listChildren]) := by
    simp [find_page, lookupCache, ClientState.empty, hfind]
  have hcall1 : create_or_update_page ClientState.empty rem chapterId name
      content1
      = ((create_page rem chapterId name content1).1,
         pagePostCache rem chapterId name content1,
         (create_page rem chapterId name content1).2,
         [Req.listChildren, Req.create]) := by
    simp only [ClientState.empty] at hfp1
    simp [create_or_update_page, hfp1, pagePostCache, ClientState.empty]
  have hlook2 : lookupCache
      (pagePostCache rem chapterId name content1).pageCache
      (pageKey chapterId name)
      = some (create_page rem chapterId name content1).1 := by
    simp [pagePostCache, lookupCache, ClientState.empty]
  have hfp2 : find_page (pagePostCache rem chapterId name content1)
      (create_page rem chapterId name content1).2 chapterId name
      = (some (create_page rem chapterId name content1).1,
         pagePostCache rem chapterId name content1, []) := by
    simp [find_page, hlook2]
  have hmapid : rem.pages.map
      (fun q => if q.id = (create_page rem chapterId name content1).1.id
        then (⟨(create_page rem chapterId name content1).1.id,
          (create_page rem chapterId name content1).1.chapterId, name,
          content2⟩ : PageM)
        else q) = rem.pages := by
    rw [show rem.pages.map
          (fun q => if q.id = (create_page rem chapterId name content1).1.id
            then (⟨(create_page rem chapterId name content1).1.id,
              (create_page rem chapterId name content1).1.chapterId, name,
              content2⟩ : PageM)
            else q) = rem.pages.map id from
        List.map_congr_left (fun q hq => by
          simp [create_page, hid q hq])]
    exact List.map_id rem.pages
  refine ⟨?_, ?_, ?_, ?_⟩
  · simp only [hcall1]
    simp [create_or_update_page, hfp2, update_page]
  · simp only [hcall1]
  · simp only [hcall1]
    simp [create_or_update_page, hfp2, update_page]
  · simp only [hcall1]
    simp only [create_or_update_page, hfp2, update_page]
    simp only [create_page, List.map_append]
    rw [show ((⟨rem.nextId, chapterId, name, content1⟩ : PageM) :: []).map
        (fun q => if q.id = rem.nextId
          then (⟨rem.nextId, chapterId, name, content2⟩ : PageM) else q)
        = [(⟨rem.nextId, chapterId, name, content2⟩ : PageM)] by simp]
    rw [show rem.pages.map
        (fun q => if q.id = rem.nextId
          then (⟨rem.nextId, chapterId, name, content2⟩ : PageM) else q)
        = rem.pages.map id from
      List.map_congr_left (fun q hq => by simp [hid q hq])]
    rw [List.map_id]
    exact filter_single _ _ _
      (fun x hx => by simpa using fun h1 => hp x hx h1)
      (by simp)

/-- C2: from a clean remote state (no entity of the requested name in the
relevant scope, ids fresh) and a fresh client, running each find-or-create
operation twice creates exactly one remote object of that name: the first
call issues one create request, afterwards exactly one matching remote
entity exists, and the second call issues zero create requests, answering
from the cache (book, chapter, page) or the remote case-insensitive match
(shelf); the second call returns the entity of the first call (for the
page write, the same page id, updated in place). -/
theorem find_or_create_idempotent (rem : Remote) (name : String)
    (bookId chapterId : Nat) (content1 content2 : String)
    (hs : ∀ s ∈ rem.shelves, lowerStr s.name ≠ lowerStr name)
    (hb : ∀ b ∈ rem.books, lowerStr b.name ≠ lowerStr name)
    (hc : ∀ c ∈ rem.chapters, c.bookId = bookId →
      lowerStr c.name ≠ lowerStr name)
    (hp : ∀ p ∈ rem.pages, p.chapterId = chapterId →
      lowerStr p.name ≠ lowerStr name)
    (hid : ∀ p ∈ rem.pages, p.id ≠ rem.nextId) :
    ((find_or_create_shelf (find_or_create_shelf rem name).2.1 name).1
        = (find_or_create_shelf rem name).1
      ∧ (find_or_create_shelf rem name).2.2 = [Req.search, Req.create]
      ∧ (find_or_create_shelf (find_or_create_shelf rem name).2.1 name).2.2
          = [Req.search]
      ∧ ((find_or_create_shelf
            (find_or_create_shelf rem name).2.1 name).2.1.shelves.filter
          (fun s => lowerStr s.name = lowerStr name)).length = 1)
    ∧ ((find_or_create_book
          (find_or_create_book ClientState.empty rem name).2.1
          (find_or_create_book ClientState.empty rem name).2.2.1 name).1
        = (find_or_create_book ClientState.empty rem name).1
      ∧ (find_or_create_book ClientState.empty rem name).2.2.2
          = [Req.search, Req.create]
      ∧ (find_or_create_book
          (find_or_create_book ClientState.empty rem name).2.1
          (find_or_create_book ClientState.empty rem name).2.2.1 name).2.2.2
        = []
      ∧ ((find_or_create_book
            (find_or_create_book ClientState.empty rem name).2.1
            (find_or_create_book ClientState.empty rem name).2.2.1
            name).2.2.1.books.filter
          (fun b => lowerStr b.name = lowerStr name)).length = 1)
    ∧ ((find_or_create_chapter
          (find_or_create_chapter ClientState.empty rem bookId name).2.1
          (find_or_create_chapter ClientState.empty rem bookId name).2.2.1
          bookId name).1
        = (find_or_create_chapter ClientState.empty rem bookId name).1
      ∧ (find_or_create_chapter ClientState.empty rem bookId name).2.2.2
          = [Req.listChildren, Req.create]
      ∧ (find_or_create_chapter
          (find_or_create_chapter ClientState.empty rem bookId name).2.1
          (find_or_create_chapter ClientState.empty rem bookId name).2.2.1
          bookId name).2.2.2 = []
      ∧ ((find_or_create_chapter
            (find_or_create_chapter ClientState.empty rem bookId name).2.1
            (find_or_create_chapter ClientState.empty rem bookId name).2.2.1
            bookId name).2.2.1.chapters.filter
          (fun c => c.bookId = bookId
            ∧ lowerStr c.name = lowerStr name)).length = 1)
    ∧ ((create_or_update_page
          (create_or_update_page ClientState.empty rem chapterId name
            content1).2.1
          (create_or_update_page ClientState.empty rem chapterId name
            content1).2.2.1 chapterId name content2).1.id
        = (create_or_update_page ClientState.empty rem chapterId name
            content1).1.id
      ∧ (create_or_update_page ClientState.empty rem chapterId name
          content1).2.2.2 = [Req.listChildren, Req.create]
      ∧ (create_or_update_page
          (create_or_update_page ClientState.empty rem chapterId name
            content1).2.1
          (create_or_update_page ClientState.empty rem chapterId name
            content1).2.2.1 chapterId name content2).2.2.2 = [Req.update]
      ∧ ((create_or_update_page
            (create_or_update_page ClientState.empty rem chapterId name
              content1).2.1
            (create_or_update_page ClientState.empty rem chapterId name
              content1).2.2.1 chapterId name content2).2.2.1.pages.filter
          (fun p => p.chapterId = chapterId
            ∧ lowerStr p.name = lowerStr name)).length = 1) :=
  ⟨shelf_idem rem name hs, book_idem rem name hb,
   chapter_idem rem bookId name hc,
   page_idem rem chapterId name content1 content2 hp hid⟩

/-- A clean remote BookStack instance: nothing stored yet. -/
def remClean : Remote := ⟨[], [], [], [], 1⟩

/-- C2 witness: on the empty remote, second calls of the four
find-or-create operations issue no create request: the shelf call is a
search answered by the remote match, the book and chapter calls are pure
cache hits, the page call is a cache hit followed by one update. -/
theorem find_or_create_idempotent_witness :
    (find_or_create_shelf (find_or_create_shelf remClean "Kitchen").2.1
        "Kitchen").2.2 = [Req.search]
    ∧ (find_or_create_book
        (find_or_create_book ClientState.empty remClean "Kitchen").2.1
        (find_or_create_book ClientState.empty remClean "Kitchen").2.2.1
        "Kitchen").2.2.2 = []
    ∧ (find_or_create_chapter
        (find_or_create_chapter ClientState.empty remClean 1 "Kitchen").2.1
        (find_or_create_chapter ClientState.empty remClean 1
          "Kitchen").2.2.1 1 "Kitchen").2.2.2 = []
    ∧ (create_or_update_page
        (create_or_update_page ClientState.empty remClean 2 "Kitchen" "a").2.1
        (create_or_update_page ClientState.empty remClean 2 "Kitchen"
          "a").2.2.1 2 "Kitchen" "b").2.2.2 = [Req.update] := by
  have h := find_or_create_idempotent remClean "Kitchen" 1 2 "a" "b"
    (by simp [remClean]) (by simp [remClean]) (by simp [remClean])
    (by simp [remClean]) (by simp [remClean])
  exact ⟨h.1.2.2.1, h.2.1.2.2.1, h.2.2.1.2.2.1, h.2.2.2.2.2.1⟩

/-! ## Rate limiting (`BookStackClient._make_request`,
`bookstack_api.py` 243-267) -/

/-- `_min_request_interval`: 0.5 seconds between requests. -/
def minRequestInterval : ℚ := 1 / 2

/-- The sleep `_make_request` performs before sending: the elapsed time
since the previous request is measured and, when below the floor, the
call sleeps for exactly the difference. -/
def rateLimitSleep (lastRequestTime currentTime : ℚ) : ℚ :=
  let timeSinceLast := currentTime - lastRequestTime
  if timeSinceLast < minRequestInterval
  then minRequestInterval - timeSinceLast else 0

/-- The moment the request goes out, with `time.sleep` modelled as
advancing the wall clock by exactly the requested duration. -/
def requestSendTime (lastRequestTime currentTime : ℚ) : ℚ :=
  currentTime + rateLimitSleep lastRequestTime currentTime

/-- C9: at least 0.5 s of wall-clock time separates a request from the
previous one: before sending, the client computes the elapsed time since
the previous request and, exactly when it is below the 0.5 s floor,
sleeps for exactly the remaining difference, and sends immediately
otherwise. -/
theorem rate_limit_min_gap (last cur : ℚ) :
    minRequestInterval ≤ requestSendTime last cur - last
    ∧ (cur - last < minRequestInterval →
        rateLimitSleep last cur = minRequestInterval - (cur - last))
    ∧ (minRequestInterval ≤ cur - last → rateLimitSleep last cur = 0) := by
  refine ⟨?_, fun h => ?_, fun h => ?_⟩
  · simp only [requestSendTime, rateLimitSleep]
    split_ifs with h
    · linarith
    · rw [not_lt] at h
      linarith
  · simp only [rateLimitSleep]
    rw [if_pos h]
  · simp only [rateLimitSleep]
    rw [if_neg (not_lt.mpr h)]

/-- C9 witness: previous request finished at 10 s, the next call starts
at 10.2 s and therefore sleeps exactly 0.3 s. -/
theorem rate_limit_min_gap_witness :
    rateLimitSleep 10 (51 / 5) = minRequestInterval - (51 / 5 - 10) :=
  (rate_limit_min_gap 10 (51 / 5)).2.1 (by norm_num [minRequestInterval])

end BookStack
